import Mathlib

/-!
# Verification of the agile-ai-chat-assistant turn controller

Shallow embedding of the safety-gated, tool-calling conversational state
machine of `src/agents/jira_assistant.py` and
`src/agents/azure_devops_assistant.py`, together with a representative
tool wrapper (`src/agents/jira/projects.py` / `src/agents/jira/utils.py`).

External collaborators (the language model, the LlamaGuard safety
classifier, the HTTP layer / tool callables) are parameters of the
embedding (`Env`), as the specification treats them: opaque functions.
The file `agents/llama_guard.py` is not part of the sources available
here, so its output type is modelled from the specification.
-/

/-- Modelled from the spec: `agents/llama_guard.py` is not in the available
sources.  §3, §6: "SafetyVerdict: enum {safe, unsafe}";
`(role, messages) -> {assessment: safe|unsafe, categories: string[]}`.
The Python enum members are upper-case (`SafetyAssessment.UNSAFE` in
`jira_assistant.py:219`). -/
inductive SafetyAssessment where
  | SAFE
  | UNSAFE
deriving DecidableEq, Repr

/-- Modelled from the spec: output of the LlamaGuard classifier — a
safety assessment plus the list of violated category labels
(`safety.unsafe_categories` in `format_safety_message`). -/
structure LlamaGuardOutput where
  safety_assessment : SafetyAssessment
  unsafe_categories : List String
deriving DecidableEq, Repr

/-- A tool-call request carried by an assistant message
(`response.tool_calls` in `acall_model`): a name, serialized arguments
and a call identifier. -/
structure ToolCall where
  id : String
  name : String
  args : String
deriving DecidableEq, Repr

/-- LangChain messages as used by the two assistants: `HumanMessage`,
`AIMessage` (with optional id and tool calls), `ToolMessage` (content plus
the id of the call it answers) and `SystemMessage`. -/
inductive Message where
  | human (content : String)
  | ai (msgId : Option String) (content : String) (calls : List ToolCall)
  | toolMsg (content : String) (tool_call_id : String)
  | system (content : String)
deriving DecidableEq, Repr

/-- The `AgentState` of `jira_assistant.py` / `azure_devops_assistant.py`:
the message list, the last safety verdict and the managed
`remaining_steps` counter.  `remaining_steps` is an integer so that
non-negativity is a theorem rather than a consequence of truncation. -/
structure AgentState where
  messages : List Message
  safety : LlamaGuardOutput
  remaining_steps : Int
deriving DecidableEq, Repr

/-- The draft response of the model: an `AIMessage` before it is appended
(`response` in `acall_model`). -/
structure AIDraft where
  msgId : Option String
  content : String
  calls : List ToolCall
deriving DecidableEq, Repr

/-- Convert a draft to the message that would be appended verbatim. -/
def AIDraft.toMessage (d : AIDraft) : Message :=
  Message.ai d.msgId d.content d.calls

/-- The external collaborators of one assistant, per spec §4.2/§4.3/§6:
the bound language model (the bound model of `wrap_model`), the safety
classifier (`LlamaGuard().ainvoke`), the tool registry as a dispatch
function from tool name and arguments to the returned string, and the
fixed system instruction text. -/
structure Env where
  draft : List Message → AIDraft
  guard : String → List Message → LlamaGuardOutput
  toolFn : String → String → String
  instructions : String

/-- The return value of a node function: the messages to append (the
`add_messages` reducer of `MessagesState` appends) and the safety key
when present (`none` = key absent from the returned dict). -/
structure StateUpdate where
  messages : List Message
  safety : Option LlamaGuardOutput
deriving DecidableEq, Repr

/-- Merge the partial update of a node into the state: messages are appended,
`safety` is overwritten when the key is present. -/
def applyUpdate (s : AgentState) (u : StateUpdate) : AgentState :=
  { s with
    messages := s.messages ++ u.messages
    safety := u.safety.getD s.safety }

/-- The nodes of the graph (`agent.add_node` calls), plus the terminal `END`. -/
inductive Node where
  | guard_input
  | model
  | tools
  | block_unsafe_content
  | done
deriving DecidableEq, Repr

namespace Jira

/-- The preprocessor of `wrap_model`: prepend the system instructions to the
messages of the state, as in the StateModifier lambda. -/
def wrap_model (env : Env) (s : AgentState) : List Message :=
  Message.system env.instructions :: s.messages

/-- Embedding of `format_safety_message` of `jira_assistant.py`: the synthesized
flagged assistant message. -/
def format_safety_message (safety : LlamaGuardOutput) : Message :=
  Message.ai none
    ("This conversation was flagged for unsafe content: "
      ++ String.intercalate ", " safety.unsafe_categories)
    []

/-- Embedding of `acall_model` of `jira_assistant.py`: invoke the model on the
prepended history, re-check safety on history + draft with role "Agent",
and return the appropriate partial update. -/
def acall_model (env : Env) (s : AgentState) : StateUpdate :=
  let response := env.draft (wrap_model env s)
  let safety_output := env.guard "Agent" (s.messages ++ [response.toMessage])
  if safety_output.safety_assessment = SafetyAssessment.UNSAFE then
    { messages := [format_safety_message safety_output], safety := some safety_output }
  else if s.remaining_steps < 2 ∧ response.calls ≠ [] then
    { messages := [Message.ai response.msgId
        "Sorry, need more steps to process this request." []]
      safety := none }
  else
    { messages := [response.toMessage], safety := none }

/-- Embedding of `llama_guard_input` of `jira_assistant.py`: classify the incoming
history with role "User"; return the verdict and an empty message list. -/
def llama_guard_input (env : Env) (s : AgentState) : StateUpdate :=
  { messages := [], safety := some (env.guard "User" s.messages) }

/-- Embedding of `block_unsafe_content` of `jira_assistant.py`: append the flagged
message built from the stored verdict. -/
def block_unsafe_content (s : AgentState) : StateUpdate :=
  { messages := [format_safety_message s.safety], safety := none }

/-- Embedding of `check_safety` of `jira_assistant.py`: route on the stored verdict,
returning the literal `"unsafe"` or `"safe"`. -/
def check_safety (s : AgentState) : String :=
  match s.safety.safety_assessment with
  | SafetyAssessment.UNSAFE => "unsafe"
  | _ => "safe"

/-- Embedding of `pending_tool_calls` of `jira_assistant.py`: inspect the last
message; raise `IndexError` on an empty list, `TypeError` when it is not
an `AIMessage`, and otherwise route on whether it carries tool calls. -/
def pending_tool_calls (s : AgentState) : Except String String :=
  match s.messages.getLast? with
  | none => Except.error "IndexError: list index out of range"
  | some (Message.ai _ _ calls) =>
      if calls ≠ [] then Except.ok "tools" else Except.ok "done"
  | some _ => Except.error "TypeError: Expected AIMessage"

/-- Modelled from the spec: `langgraph.prebuilt.ToolNode` is third-party
code not in this repository.  §4.1.3: "for each pending ToolCallRequest
in the just-appended assistant message, invoke the named Tool Registry
entry synchronously with the supplied arguments; append one ToolResult
message per call, in the same order as the requests." -/
def tool_node (env : Env) (s : AgentState) : List Message :=
  match s.messages.getLast? with
  | some (Message.ai _ _ calls) =>
      calls.map (fun c => Message.toolMsg (env.toolFn c.name c.args) c.id)
  | _ => []

/-- The (name, args) pairs of the tool invocations performed by the
`tools` node, logged so that "no tool is invoked" is a statement about
the run. -/
def tool_invocations (s : AgentState) : List (String × String) :=
  match s.messages.getLast? with
  | some (Message.ai _ _ calls) => calls.map (fun c => (c.name, c.args))
  | _ => []

/-- Result of one superstep: next node, next state, and the tool
invocations performed during the step. -/
structure StepOut where
  node : Node
  state : AgentState
  invs : List (String × String)
deriving DecidableEq, Repr

/-- One superstep of the compiled graph, following the edges declared in
`jira_assistant.py`: entry `guard_input`; conditional edges
`guard_input --check_safety--> {block_unsafe_content, model}` and
`model --pending_tool_calls--> {tools, END}`; `block_unsafe_content → END`;
`tools → model`.  The spec-modelled `tools` node decrements the
remaining-step counter (§4.1.3).  Errors raised by routing functions
propagate. -/
def step (env : Env) (n : Node) (s : AgentState) : Except String StepOut :=
  match n with
  | Node.guard_input =>
      let s' := applyUpdate s (llama_guard_input env s)
      if check_safety s' = "unsafe" then
        Except.ok ⟨Node.block_unsafe_content, s', []⟩
      else
        Except.ok ⟨Node.model, s', []⟩
  | Node.model =>
      let s' := applyUpdate s (acall_model env s)
      match pending_tool_calls s' with
      | Except.error e => Except.error e
      | Except.ok r =>
          if r = "tools" then Except.ok ⟨Node.tools, s', []⟩
          else Except.ok ⟨Node.done, s', []⟩
  | Node.tools =>
      let s' := { s with
        messages := s.messages ++ tool_node env s
        remaining_steps := s.remaining_steps - 1 }
      Except.ok ⟨Node.model, s', tool_invocations s⟩
  | Node.block_unsafe_content =>
      Except.ok ⟨Node.done, applyUpdate s (block_unsafe_content s), []⟩
  | Node.done => Except.ok ⟨Node.done, s, []⟩

/-- Outcome of a (fuel-bounded) run: final node and state, all tool
invocations in order, and the nodes executed in order. -/
structure RunResult where
  node : Node
  state : AgentState
  invs : List (String × String)
  visited : List Node
deriving DecidableEq, Repr

/-- Execute the graph for at most `fuel` supersteps, stopping at `END`. -/
def run (env : Env) : Nat → Node → AgentState → Except String RunResult
  | 0, n, s => Except.ok ⟨n, s, [], []⟩
  | fuel + 1, n, s =>
      if n = Node.done then Except.ok ⟨Node.done, s, [], []⟩
      else
        match step env n s with
        | Except.error e => Except.error e
        | Except.ok o =>
            match run env fuel o.node o.state with
            | Except.error e => Except.error e
            | Except.ok r => Except.ok ⟨r.node, r.state, o.invs ++ r.invs, n :: r.visited⟩

end Jira

namespace AzureDevOps

/-- The preprocessor of `wrap_model` in `azure_devops_assistant.py`: prepend
the system instructions to the messages of the state. -/
def wrap_model (env : Env) (s : AgentState) : List Message :=
  Message.system env.instructions :: s.messages

/-- Embedding of `format_safety_message` of `azure_devops_assistant.py`. -/
def format_safety_message (safety : LlamaGuardOutput) : Message :=
  Message.ai none
    ("This conversation was flagged for unsafe content: "
      ++ String.intercalate ", " safety.unsafe_categories)
    []

/-- Embedding of `acall_model` of `azure_devops_assistant.py`. -/
def acall_model (env : Env) (s : AgentState) : StateUpdate :=
  let response := env.draft (wrap_model env s)
  let safety_output := env.guard "Agent" (s.messages ++ [response.toMessage])
  if safety_output.safety_assessment = SafetyAssessment.UNSAFE then
    { messages := [format_safety_message safety_output], safety := some safety_output }
  else if s.remaining_steps < 2 ∧ response.calls ≠ [] then
    { messages := [Message.ai response.msgId
        "Sorry, need more steps to process this request." []]
      safety := none }
  else
    { messages := [response.toMessage], safety := none }

/-- Embedding of `llama_guard_input` of `azure_devops_assistant.py`. -/
def llama_guard_input (env : Env) (s : AgentState) : StateUpdate :=
  { messages := [], safety := some (env.guard "User" s.messages) }

/-- Embedding of `block_unsafe_content` of `azure_devops_assistant.py`. -/
def block_unsafe_content (s : AgentState) : StateUpdate :=
  { messages := [format_safety_message s.safety], safety := none }

/-- Embedding of `check_safety` of `azure_devops_assistant.py`. -/
def check_safety (s : AgentState) : String :=
  match s.safety.safety_assessment with
  | SafetyAssessment.UNSAFE => "unsafe"
  | _ => "safe"

/-- Embedding of `pending_tool_calls` of `azure_devops_assistant.py`. -/
def pending_tool_calls (s : AgentState) : Except String String :=
  match s.messages.getLast? with
  | none => Except.error "IndexError: list index out of range"
  | some (Message.ai _ _ calls) =>
      if calls ≠ [] then Except.ok "tools" else Except.ok "done"
  | some _ => Except.error "TypeError: Expected AIMessage"

/-- Modelled from the spec: the third-party `ToolNode` bound in
`azure_devops_assistant.py:245`, as in the Jira graph (§4.1.3). -/
def tool_node (env : Env) (s : AgentState) : List Message :=
  match s.messages.getLast? with
  | some (Message.ai _ _ calls) =>
      calls.map (fun c => Message.toolMsg (env.toolFn c.name c.args) c.id)
  | _ => []

/-- Tool invocations performed by the `tools` node. -/
def tool_invocations (s : AgentState) : List (String × String) :=
  match s.messages.getLast? with
  | some (Message.ai _ _ calls) => calls.map (fun c => (c.name, c.args))
  | _ => []

/-- One superstep of the compiled Azure DevOps graph, following the
edges declared in `azure_devops_assistant.py` (entry `guard_input`, the
two conditional edges, `block_unsafe_content → END`, `tools → model`). -/
def step (env : Env) (n : Node) (s : AgentState) : Except String Jira.StepOut :=
  match n with
  | Node.guard_input =>
      let s' := applyUpdate s (llama_guard_input env s)
      if check_safety s' = "unsafe" then
        Except.ok ⟨Node.block_unsafe_content, s', []⟩
      else
        Except.ok ⟨Node.model, s', []⟩
  | Node.model =>
      let s' := applyUpdate s (acall_model env s)
      match pending_tool_calls s' with
      | Except.error e => Except.error e
      | Except.ok r =>
          if r = "tools" then Except.ok ⟨Node.tools, s', []⟩
          else Except.ok ⟨Node.done, s', []⟩
  | Node.tools =>
      let s' := { s with
        messages := s.messages ++ tool_node env s
        remaining_steps := s.remaining_steps - 1 }
      Except.ok ⟨Node.model, s', tool_invocations s⟩
  | Node.block_unsafe_content =>
      Except.ok ⟨Node.done, applyUpdate s (block_unsafe_content s), []⟩
  | Node.done => Except.ok ⟨Node.done, s, []⟩

end AzureDevOps

/-! ## The JIRA tool wrapper layer (`src/agents/jira/utils.py`, `projects.py`) -/

/-- The credential configuration read by `JiraApiClient.__init__`:
each value comes from `settings` or the environment and may be absent. -/
structure JiraSettings where
  jira_url : Option String
  jira_email : Option String
  jira_api_token : Option String
deriving DecidableEq, Repr

/-- Python truthiness of an optional string, as tested by
`all([self.jira_url, self.jira_email, self.jira_api_token])`:
`None` and the empty string are falsy. -/
def pyTruthy (o : Option String) : Bool :=
  match o with
  | none => false
  | some s => !s.isEmpty

/-- The `JiraApiClient` after successful construction: the normalized base
URL and the API base path (authentication headers carry no control
flow and are elided). -/
structure JiraApiClient where
  jira_url : String
  api_base_path : String
deriving DecidableEq, Repr

/-- Embedding of the Python test for a trailing slash on the URL: for
the one-character suffix
this is exactly "the last character is a slash", stated over the
character list so that it evaluates. -/
def pyEndsWithSlash (s : String) : Bool :=
  s.data.getLast? = some '/'

/-- Embedding of `JiraApiClient.__init__` (`src/agents/jira/utils.py:20-58`): read the
three credentials, raise `ValueError` unless all are truthy, then ensure
the URL ends with a trailing slash.  `Except.error` models the raised
exception. -/
def JiraApiClient.init (settings : JiraSettings)
    (api_base_path : String := "rest/api/3/") : Except String JiraApiClient :=
  if pyTruthy settings.jira_url && pyTruthy settings.jira_email
      && pyTruthy settings.jira_api_token then
    let url := settings.jira_url.getD ""
    Except.ok
      { jira_url := if pyEndsWithSlash url then url else url ++ "/"
        api_base_path := api_base_path }
  else
    Except.error "JIRA_URL, JIRA_EMAIL, and JIRA_API_TOKEN must be set"

/-- Embedding of `get_jira_client` (`src/agents/jira/utils.py:157-165`). -/
def get_jira_client (settings : JiraSettings)
    (api_base_path : String := "rest/api/3/") : Except String JiraApiClient :=
  JiraApiClient.init settings api_base_path

/-- The URL a `client.get(endpoint)` request targets
(`f"{self.jira_url}{self.api_base_path}{endpoint}"`). -/
def JiraApiClient.requestUrl (c : JiraApiClient) (endpoint : String) : String :=
  c.jira_url ++ c.api_base_path ++ endpoint

/-- One project record of the JSON array returned by the `project`
endpoint, as read by `get_all_projects` via `project.get("key", ...)` and
`project.get("name", ...)`. -/
structure ProjectRec where
  key : Option String
  name : Option String
deriving DecidableEq, Repr

/-- Embedding of `get_all_projects` (`src/agents/jira/projects.py:14-37`).
`httpGet` stands for `requests.get` composed with `_handle_response` at
the request URL; its `Except.error` models any exception raised inside
the `try` block (network failure or the `ValueError` that
`_handle_response` raises on HTTP errors).  The client is constructed
BEFORE the `try` block, so a construction failure propagates to the
caller (outer `Except.error`); every exception inside the `try` is
caught and encoded as the string `"Error retrieving projects: ..."`. -/
def get_all_projects (settings : JiraSettings)
    (httpGet : String → Except String (List ProjectRec)) :
    Except String String :=
  match get_jira_client settings with
  | Except.error e => Except.error e
  | Except.ok client =>
      Except.ok
        (match httpGet (client.requestUrl "project") with
         | Except.error e => "Error retrieving projects: " ++ e
         | Except.ok response =>
             response.foldl
               (fun acc p =>
                 acc ++ "- " ++ p.key.getD "Unknown" ++ ": "
                   ++ p.name.getD "Unnamed Project" ++ "\n")
               "Available JIRA Projects:\n\n")

/-! ## Concrete fixtures used to instantiate the theorems below -/

/-- A plain draft with no tool calls. -/
def drPlain : AIDraft := ⟨some "m1", "All done.", []⟩

/-- A draft requesting one tool call. -/
def drCall : AIDraft := ⟨some "m2", "", [⟨"c1", "get_all_projects", ""⟩]⟩

/-- A classifier that finds everything safe. -/
def guardOk : String → List Message → LlamaGuardOutput :=
  fun _ _ => ⟨SafetyAssessment.SAFE, []⟩

/-- A classifier that flags everything with categories S1 and S9. -/
def guardFlag : String → List Message → LlamaGuardOutput :=
  fun _ _ => ⟨SafetyAssessment.UNSAFE, ["S1", "S9"]⟩

/-- Environment: plain draft, everything safe. -/
def envPlain : Env := ⟨fun _ => drPlain, guardOk, fun _ _ => "ok", "sys"⟩

/-- Environment: plain draft, everything flagged. -/
def envFlagged : Env := ⟨fun _ => drPlain, guardFlag, fun _ _ => "ok", "sys"⟩

/-- Environment: tool-calling draft, everything safe. -/
def envToolCall : Env := ⟨fun _ => drCall, guardOk, fun _ _ => "ok", "sys"⟩

/-- Environment: tool-calling draft, everything flagged. -/
def envAgentFlag : Env := ⟨fun _ => drCall, guardFlag, fun _ _ => "ok", "sys"⟩

/-- A starting state with one user message and a comfortable budget. -/
def st0 : AgentState := ⟨[Message.human "hi"], ⟨SafetyAssessment.SAFE, []⟩, 10⟩

/-- A starting state with one user message and budget 1. -/
def stLow : AgentState := ⟨[Message.human "hi"], ⟨SafetyAssessment.SAFE, []⟩, 1⟩

/-- A state whose last message is an assistant message with one pending
tool call, budget 5. -/
def stTools : AgentState :=
  ⟨[Message.human "hi", Message.ai (some "m2") "" [⟨"c1", "get_all_projects", ""⟩]],
    ⟨SafetyAssessment.SAFE, []⟩, 5⟩

/-- Fully-set JIRA credentials. -/
def cfgSet : JiraSettings :=
  ⟨some "https://jira.example.com", some "me@example.com", some "tok"⟩

/-- An HTTP layer whose every request fails. -/
def httpFail : String → Except String (List ProjectRec) :=
  fun _ => Except.error "ConnectionError"

/-- The client `JiraApiClient.init cfgSet` constructs. -/
def clientSet : JiraApiClient := ⟨"https://jira.example.com/", "rest/api/3/"⟩

/-- Outcome of one `guard_input` step under `envPlain` from `st0`. -/
def outGuardPlain : Jira.StepOut :=
  ⟨Node.model, ⟨[Message.human "hi"], ⟨SafetyAssessment.SAFE, []⟩, 10⟩, []⟩

/-- Outcome of the blocked turn under `envFlagged` from `st0`. -/
def resFlagged : Jira.RunResult :=
  ⟨Node.done,
    ⟨[Message.human "hi",
      Message.ai none "This conversation was flagged for unsafe content: S1, S9" []],
      ⟨SafetyAssessment.UNSAFE, ["S1", "S9"]⟩, 10⟩,
    [], [Node.guard_input, Node.block_unsafe_content]⟩

/-- Outcome of one model step under `envAgentFlag` from `st0`: the
draft is discarded and the flagged message appended. -/
def resAgentFlag : Jira.RunResult :=
  ⟨Node.done,
    ⟨[Message.human "hi",
      Message.ai none "This conversation was flagged for unsafe content: S1, S9" []],
      ⟨SafetyAssessment.UNSAFE, ["S1", "S9"]⟩, 10⟩,
    [], [Node.model]⟩

/-- Outcome of one model step under `envToolCall` from `stLow`: the
draft requests a tool but the budget is 1, so only the synthesized
"need more steps" message is appended. -/
def resLowBudget : Jira.RunResult :=
  ⟨Node.done,
    ⟨[Message.human "hi",
      Message.ai (some "m2") "Sorry, need more steps to process this request." []],
      ⟨SafetyAssessment.SAFE, []⟩, 1⟩,
    [], [Node.model]⟩

/-- Outcome of a four-step run under `envToolCall` from `st0`: the model
requests a tool, the tool runs once (budget 10 → 9), and fuel runs out
with the model requesting tools again. -/
def resToolTurn : Jira.RunResult :=
  ⟨Node.tools,
    ⟨[Message.human "hi",
      Message.ai (some "m2") "" [⟨"c1", "get_all_projects", ""⟩],
      Message.toolMsg "ok" "c1",
      Message.ai (some "m2") "" [⟨"c1", "get_all_projects", ""⟩]],
      ⟨SafetyAssessment.SAFE, []⟩, 9⟩,
    [("get_all_projects", "")],
    [Node.guard_input, Node.model, Node.tools, Node.model]⟩

/-! ## Helper lemmas -/

lemma jira_run_done (env : Env) (fuel : Nat) (s : AgentState) :
    Jira.run env fuel Node.done s = Except.ok ⟨Node.done, s, [], []⟩ := by
  cases fuel <;> simp [Jira.run]

lemma jira_acall_model_msgs (env : Env) (s : AgentState) :
    ∃ i c tc, (Jira.acall_model env s).messages = [Message.ai i c tc] ∧
      (tc ≠ [] → 2 ≤ s.remaining_steps) := by
  unfold Jira.acall_model Jira.format_safety_message AIDraft.toMessage
  dsimp only
  split
  · exact ⟨none, _, [], rfl, by simp⟩
  · split
    · exact ⟨_, _, [], rfl, by simp⟩
    · next hcond =>
        refine ⟨_, _, _, rfl, fun hne => ?_⟩
        rcases not_and_or.mp hcond with hrs | hcalls
        · omega
        · exact absurd hne hcalls

lemma jira_pending_after_model (env : Env) (s : AgentState) (i : Option String)
    (c : String) (tc : List ToolCall)
    (hm : (Jira.acall_model env s).messages = [Message.ai i c tc]) :
    Jira.pending_tool_calls (applyUpdate s (Jira.acall_model env s)) =
      (if tc ≠ [] then Except.ok "tools" else Except.ok "done") := by
  simp [Jira.pending_tool_calls, applyUpdate, hm, List.getLast?_concat]

lemma jira_step_model_ok (env : Env) (s : AgentState) :
    ∃ o, Jira.step env Node.model s = Except.ok o ∧
      o.state = applyUpdate s (Jira.acall_model env s) ∧ o.invs = [] ∧
      (o.node = Node.tools ∨ o.node = Node.done) := by
  obtain ⟨i, c, tc, hm, -⟩ := jira_acall_model_msgs env s
  have hp := jira_pending_after_model env s i c tc hm
  rcases eq_or_ne tc [] with h | h
  · refine ⟨⟨Node.done, applyUpdate s (Jira.acall_model env s), []⟩, ?_, rfl, rfl, Or.inr rfl⟩
    simp [Jira.step, hp, h]
  · refine ⟨⟨Node.tools, applyUpdate s (Jira.acall_model env s), []⟩, ?_, rfl, rfl, Or.inl rfl⟩
    simp [Jira.step, hp, h]

lemma jira_model_to_tools_gate (env : Env) (s : AgentState) (o : Jira.StepOut)
    (h : Jira.step env Node.model s = Except.ok o) (ht : o.node = Node.tools) :
    2 ≤ s.remaining_steps := by
  obtain ⟨i, c, tc, hm, hbudget⟩ := jira_acall_model_msgs env s
  have hp := jira_pending_after_model env s i c tc hm
  rcases eq_or_ne tc [] with hnil | hnil
  · simp only [Jira.step, hp, hnil] at h
    simp at h
    rw [← h] at ht
    simp at ht
  · exact hbudget hnil

lemma jira_step_append_only (env : Env) (n : Node) (s : AgentState) (o : Jira.StepOut)
    (h : Jira.step env n s = Except.ok o) :
    ∃ t, o.state.messages = s.messages ++ t := by
  cases n
  case guard_input =>
    simp only [Jira.step] at h
    split at h <;>
      · simp only [Except.ok.injEq] at h
        subst h
        exact ⟨(Jira.llama_guard_input env s).messages, rfl⟩
  case model =>
    obtain ⟨o', hstep, hstate, -, -⟩ := jira_step_model_ok env s
    rw [hstep] at h
    simp only [Except.ok.injEq] at h
    subst h
    exact ⟨(Jira.acall_model env s).messages, by rw [hstate]; rfl⟩
  case tools =>
    simp only [Jira.step, Except.ok.injEq] at h
    subst h
    exact ⟨Jira.tool_node env s, rfl⟩
  case block_unsafe_content =>
    simp only [Jira.step, Except.ok.injEq] at h
    subst h
    exact ⟨(Jira.block_unsafe_content s).messages, rfl⟩
  case done =>
    simp only [Jira.step, Except.ok.injEq] at h
    subst h
    exact ⟨[], by simp⟩

lemma jira_step_remaining (env : Env) (n : Node) (s : AgentState) (o : Jira.StepOut)
    (h : Jira.step env n s = Except.ok o) :
    o.state.remaining_steps = s.remaining_steps ∨
      (n = Node.tools ∧ o.state.remaining_steps = s.remaining_steps - 1) := by
  cases n
  case guard_input =>
    simp only [Jira.step] at h
    split at h <;>
      · simp only [Except.ok.injEq] at h
        subst h
        exact Or.inl rfl
  case model =>
    obtain ⟨o', hstep, hstate, -, -⟩ := jira_step_model_ok env s
    rw [hstep] at h
    simp only [Except.ok.injEq] at h
    subst h
    exact Or.inl (by rw [hstate]; rfl)
  case tools =>
    simp only [Jira.step, Except.ok.injEq] at h
    subst h
    exact Or.inr ⟨rfl, rfl⟩
  case block_unsafe_content =>
    simp only [Jira.step, Except.ok.injEq] at h
    subst h
    exact Or.inl rfl
  case done =>
    simp only [Jira.step, Except.ok.injEq] at h
    subst h
    exact Or.inl rfl

lemma jira_step_preserves_budget (env : Env) (n : Node) (s : AgentState)
    (o : Jira.StepOut) (h : Jira.step env n s = Except.ok o)
    (h0 : 0 ≤ s.remaining_steps) (hg : n = Node.tools → 2 ≤ s.remaining_steps) :
    0 ≤ o.state.remaining_steps ∧ o.state.remaining_steps ≤ s.remaining_steps ∧
      (o.node = Node.tools → 2 ≤ o.state.remaining_steps) := by
  cases n
  case guard_input =>
    simp only [Jira.step] at h
    split at h <;>
      · simp only [Except.ok.injEq] at h
        subst h
        refine ⟨h0, le_refl _, ?_⟩
        intro ht
        simp at ht
  case model =>
    obtain ⟨o', hstep, hstate, -, -⟩ := jira_step_model_ok env s
    have hrs : o'.state.remaining_steps = s.remaining_steps := by
      rw [hstate]; rfl
    rw [hstep] at h
    simp only [Except.ok.injEq] at h
    subst h
    refine ⟨hrs ▸ h0, le_of_eq hrs, ?_⟩
    intro ht
    rw [hrs]
    exact jira_model_to_tools_gate env s o' hstep ht
  case tools =>
    simp only [Jira.step, Except.ok.injEq] at h
    subst h
    have h2 := hg rfl
    refine ⟨?_, ?_, ?_⟩
    · simp only []
      omega
    · simp only []
      omega
    · intro ht
      simp at ht
  case block_unsafe_content =>
    simp only [Jira.step, Except.ok.injEq] at h
    subst h
    refine ⟨h0, le_refl _, ?_⟩
    intro ht
    simp at ht
  case done =>
    simp only [Jira.step, Except.ok.injEq] at h
    subst h
    refine ⟨h0, le_refl _, ?_⟩
    intro ht
    simp at ht

lemma jira_run_budget (env : Env) (fuel : Nat) :
    ∀ n s r, Jira.run env fuel n s = Except.ok r →
      0 ≤ s.remaining_steps → (n = Node.tools → 2 ≤ s.remaining_steps) →
      0 ≤ r.state.remaining_steps ∧ r.state.remaining_steps ≤ s.remaining_steps := by
  induction fuel with
  | zero =>
      intro n s r h h0 hg
      simp only [Jira.run, Except.ok.injEq] at h
      subst h
      exact ⟨h0, le_refl _⟩
  | succ fuel ih =>
      intro n s r h h0 hg
      by_cases hd : n = Node.done
      · subst hd
        rw [jira_run_done] at h
        simp only [Except.ok.injEq] at h
        subst h
        exact ⟨h0, le_refl _⟩
      · rw [Jira.run, if_neg hd] at h
        cases hstep : Jira.step env n s with
        | error e => rw [hstep] at h; cases h
        | ok o =>
            rw [hstep] at h
            dsimp only at h
            cases hrun : Jira.run env fuel o.node o.state with
            | error e => rw [hrun] at h; cases h
            | ok r' =>
                rw [hrun] at h
                dsimp only at h
                simp only [Except.ok.injEq] at h
                subst h
                obtain ⟨hP0, hPle, hPg⟩ :=
                  jira_step_preserves_budget env n s o hstep h0 hg
                obtain ⟨h1, h2⟩ := ih o.node o.state r' hrun hP0 hPg
                exact ⟨h1, le_trans h2 hPle⟩

lemma jira_run_step (env : Env) (fuel : Nat) (n : Node) (s : AgentState)
    (o : Jira.StepOut) (hn : n ≠ Node.done)
    (hstep : Jira.step env n s = Except.ok o) (r : Jira.RunResult)
    (hrun : Jira.run env fuel o.node o.state = Except.ok r) :
    Jira.run env (fuel + 1) n s =
      Except.ok ⟨r.node, r.state, o.invs ++ r.invs, n :: r.visited⟩ := by
  rw [Jira.run, if_neg hn, hstep]
  dsimp only
  rw [hrun]

lemma jira_run_guard_blocked (env : Env) (s : AgentState) (fuel : Nat)
    (h : (env.guard "User" s.messages).safety_assessment = SafetyAssessment.UNSAFE) :
    Jira.run env (fuel + 2) Node.guard_input s =
      Except.ok ⟨Node.done,
        ⟨s.messages ++ [Jira.format_safety_message (env.guard "User" s.messages)],
          env.guard "User" s.messages, s.remaining_steps⟩,
        [], [Node.guard_input, Node.block_unsafe_content]⟩ := by
  have hstep1 : Jira.step env Node.guard_input s =
      Except.ok ⟨Node.block_unsafe_content,
        ⟨s.messages, env.guard "User" s.messages, s.remaining_steps⟩, []⟩ := by
    simp [Jira.step, Jira.llama_guard_input, applyUpdate, Jira.check_safety, h]
  have hstep2 : Jira.step env Node.block_unsafe_content
      ⟨s.messages, env.guard "User" s.messages, s.remaining_steps⟩ =
      Except.ok ⟨Node.done,
        ⟨s.messages ++ [Jira.format_safety_message (env.guard "User" s.messages)],
          env.guard "User" s.messages, s.remaining_steps⟩, []⟩ := by
    simp [Jira.step, Jira.block_unsafe_content, applyUpdate]
  have h2 := jira_run_step env fuel Node.block_unsafe_content
    ⟨s.messages, env.guard "User" s.messages, s.remaining_steps⟩
    ⟨Node.done,
      ⟨s.messages ++ [Jira.format_safety_message (env.guard "User" s.messages)],
        env.guard "User" s.messages, s.remaining_steps⟩, []⟩
    (by simp) hstep2 _ (jira_run_done env fuel _)
  have h1 := jira_run_step env (fuel + 1) Node.guard_input s
    ⟨Node.block_unsafe_content,
      ⟨s.messages, env.guard "User" s.messages, s.remaining_steps⟩, []⟩
    (by simp) hstep1 _ h2
  simpa using h1

/-! ## Claim theorems -/

/-- C1: if the `guard_input` safety check returns unsafe, the turn
appends exactly one assistant message whose content is the flagged-text
prefix followed by the comma-joined violated categories, no tool is
invoked, and the run goes `guard_input → block_unsafe_content → END`,
never visiting the `model` or `tools` nodes. -/
theorem guard_input_unsafe_blocks_turn (env : Env) (s : AgentState) (fuel : Nat)
    (h : (env.guard "User" s.messages).safety_assessment = SafetyAssessment.UNSAFE) :
    Jira.run env (fuel + 2) Node.guard_input s =
      Except.ok ⟨Node.done,
        ⟨s.messages ++
            [Message.ai none
              ("This conversation was flagged for unsafe content: "
                ++ String.intercalate ", " (env.guard "User" s.messages).unsafe_categories)
              []],
          env.guard "User" s.messages, s.remaining_steps⟩,
        [], [Node.guard_input, Node.block_unsafe_content]⟩ :=
  jira_run_guard_blocked env s fuel h

/-- Witness for C1 at the concrete flagged environment. -/
theorem guard_input_unsafe_blocks_turn_witness :
    Jira.run envFlagged 2 Node.guard_input st0 = Except.ok resFlagged :=
  guard_input_unsafe_blocks_turn envFlagged st0 0 rfl

/-- C4: if the post-draft Agent-role safety check returns unsafe, the
draft is discarded, the synthesized flagged message is appended instead,
the stored verdict is overwritten with the Agent verdict, and the turn
terminates with no tool dispatch. -/
theorem model_unsafe_output_discards_draft (env : Env) (s : AgentState) (fuel : Nat)
    (h : (env.guard "Agent"
        (s.messages ++ [(env.draft (Jira.wrap_model env s)).toMessage])).safety_assessment =
      SafetyAssessment.UNSAFE) :
    Jira.run env (fuel + 1) Node.model s =
      Except.ok ⟨Node.done,
        ⟨s.messages ++
            [Jira.format_safety_message
              (env.guard "Agent"
                (s.messages ++ [(env.draft (Jira.wrap_model env s)).toMessage]))],
          env.guard "Agent" (s.messages ++ [(env.draft (Jira.wrap_model env s)).toMessage]),
          s.remaining_steps⟩,
        [], [Node.model]⟩ := by
  set v := env.guard "Agent" (s.messages ++ [(env.draft (Jira.wrap_model env s)).toMessage])
    with hv
  have hupd : Jira.acall_model env s =
      { messages := [Jira.format_safety_message v], safety := some v } := by
    unfold Jira.acall_model
    dsimp only
    rw [← hv, if_pos h]
  have hm : (Jira.acall_model env s).messages =
      [Message.ai none
        ("This conversation was flagged for unsafe content: "
          ++ String.intercalate ", " v.unsafe_categories) []] := by
    rw [hupd]; rfl
  have hp := jira_pending_after_model env s none _ [] hm
  simp only [ne_eq, not_true_eq_false, if_false, reduceIte] at hp
  have hne : ¬ (("done" : String) = "tools") := by decide
  have happly : applyUpdate s (Jira.acall_model env s) =
      ⟨s.messages ++ [Jira.format_safety_message v], v, s.remaining_steps⟩ := by
    rw [hupd]; simp [applyUpdate]
  have hstep : Jira.step env Node.model s =
      Except.ok ⟨Node.done,
        ⟨s.messages ++ [Jira.format_safety_message v], v, s.remaining_steps⟩, []⟩ := by
    simp only [Jira.step, hp]
    rw [if_neg hne, happly]
  have hfin := jira_run_step env fuel Node.model s
    ⟨Node.done, ⟨s.messages ++ [Jira.format_safety_message v], v, s.remaining_steps⟩, []⟩
    (by simp) hstep _ (jira_run_done env fuel _)
  simpa using hfin

/-- Witness for C4 at the concrete agent-flagging environment. -/
theorem model_unsafe_output_discards_draft_witness :
    Jira.run envAgentFlag 1 Node.model st0 = Except.ok resAgentFlag :=
  model_unsafe_output_discards_draft envAgentFlag st0 0 rfl

/-- C3 counterexample: with remaining-steps 1 and a draft containing a
tool call, the output of the turn need NOT be the "need more steps" message —
when the post-draft Agent safety check flags the draft, the flagged
message is appended instead (the safety branch of `acall_model` precedes
the budget branch). -/
theorem low_budget_claim_fails_when_output_flagged :
    stLow.remaining_steps < 2 ∧
    (envAgentFlag.draft (Jira.wrap_model envAgentFlag stLow)).calls ≠ [] ∧
    Jira.run envAgentFlag 1 Node.model stLow =
      Except.ok ⟨Node.done,
        ⟨[Message.human "hi",
          Message.ai none "This conversation was flagged for unsafe content: S1, S9" []],
          ⟨SafetyAssessment.UNSAFE, ["S1", "S9"]⟩, 1⟩,
        [], [Node.model]⟩ ∧
    Message.ai none "This conversation was flagged for unsafe content: S1, S9" [] ≠
      Message.ai none "Sorry, need more steps to process this request." [] := by
  refine ⟨by decide, by decide, by rfl, by decide⟩

/-- C3 (amended): if remaining-steps < 2, the draft requests at least
one tool call, AND the post-draft Agent safety check returns safe, then
the output of the turn is exactly one assistant message with content
"Sorry, need more steps to process this request." and no tool is
invoked. -/
theorem low_budget_tool_draft_yields_need_more_steps (env : Env) (s : AgentState)
    (fuel : Nat)
    (hsafe : (env.guard "Agent"
        (s.messages ++ [(env.draft (Jira.wrap_model env s)).toMessage])).safety_assessment =
      SafetyAssessment.SAFE)
    (hrs : s.remaining_steps < 2)
    (hcalls : (env.draft (Jira.wrap_model env s)).calls ≠ []) :
    Jira.run env (fuel + 1) Node.model s =
      Except.ok ⟨Node.done,
        ⟨s.messages ++
            [Message.ai (env.draft (Jira.wrap_model env s)).msgId
              "Sorry, need more steps to process this request." []],
          s.safety, s.remaining_steps⟩,
        [], [Node.model]⟩ := by
  have hne : ¬ ((env.guard "Agent"
      (s.messages ++ [(env.draft (Jira.wrap_model env s)).toMessage])).safety_assessment =
        SafetyAssessment.UNSAFE) := by
    rw [hsafe]
    intro hu
    exact SafetyAssessment.noConfusion hu
  have hupd : Jira.acall_model env s =
      { messages := [Message.ai (env.draft (Jira.wrap_model env s)).msgId
          "Sorry, need more steps to process this request." []]
        safety := none } := by
    unfold Jira.acall_model
    dsimp only
    rw [if_neg hne, if_pos ⟨hrs, hcalls⟩]
  have hm : (Jira.acall_model env s).messages =
      [Message.ai (env.draft (Jira.wrap_model env s)).msgId
        "Sorry, need more steps to process this request." []] := by
    rw [hupd]
  have hp := jira_pending_after_model env s _ _ [] hm
  simp only [ne_eq, not_true_eq_false, if_false, reduceIte] at hp
  have hned : ¬ (("done" : String) = "tools") := by decide
  have happly : applyUpdate s (Jira.acall_model env s) =
      ⟨s.messages ++
          [Message.ai (env.draft (Jira.wrap_model env s)).msgId
            "Sorry, need more steps to process this request." []],
        s.safety, s.remaining_steps⟩ := by
    rw [hupd]
    simp [applyUpdate]
  have hstep : Jira.step env Node.model s =
      Except.ok ⟨Node.done,
        ⟨s.messages ++
            [Message.ai (env.draft (Jira.wrap_model env s)).msgId
              "Sorry, need more steps to process this request." []],
          s.safety, s.remaining_steps⟩, []⟩ := by
    simp only [Jira.step, hp]
    rw [if_neg hned, happly]
  have hfin := jira_run_step env fuel Node.model s
    ⟨Node.done,
      ⟨s.messages ++
          [Message.ai (env.draft (Jira.wrap_model env s)).msgId
            "Sorry, need more steps to process this request." []],
        s.safety, s.remaining_steps⟩, []⟩
    (by simp) hstep _ (jira_run_done env fuel _)
  simpa using hfin

/-- Witness for the amended C3 at the concrete low-budget environment. -/
theorem low_budget_tool_draft_yields_need_more_steps_witness :
    Jira.run envToolCall 1 Node.model stLow = Except.ok resLowBudget :=
  low_budget_tool_draft_yields_need_more_steps envToolCall stLow 0 rfl
    (by decide) (by decide)

/-- C5: when the last message is an assistant message with n ≥ 1
tool-call requests and remaining-steps ≥ 2, the `tools` state invokes
each named tool and appends exactly n ToolResult messages, one per
request and in request order, then transitions back to `model` with the
counter decremented. -/
theorem tools_state_appends_results_in_order (env : Env) (s : AgentState)
    (i : Option String) (content : String) (calls : List ToolCall)
    (hlast : s.messages.getLast? = some (Message.ai i content calls))
    (_hn : calls ≠ []) (_hrs : 2 ≤ s.remaining_steps) :
    Jira.step env Node.tools s =
      Except.ok ⟨Node.model,
        ⟨s.messages ++ calls.map (fun c => Message.toolMsg (env.toolFn c.name c.args) c.id),
          s.safety, s.remaining_steps - 1⟩,
        calls.map (fun c => (c.name, c.args))⟩ ∧
    (calls.map (fun c => Message.toolMsg (env.toolFn c.name c.args) c.id)).length =
      calls.length := by
  constructor
  · simp [Jira.step, Jira.tool_node, Jira.tool_invocations, hlast]
  · simp

/-- Witness for C5 at the concrete pending-tool-call state. -/
theorem tools_state_appends_results_in_order_witness :
    Jira.step envToolCall Node.tools stTools =
      Except.ok ⟨Node.model,
        ⟨[Message.human "hi",
          Message.ai (some "m2") "" [⟨"c1", "get_all_projects", ""⟩],
          Message.toolMsg "ok" "c1"],
          ⟨SafetyAssessment.SAFE, []⟩, 4⟩,
        [("get_all_projects", "")]⟩ ∧
    ([Message.toolMsg "ok" "c1"] : List Message).length =
      ([⟨"c1", "get_all_projects", ""⟩] : List ToolCall).length :=
  (tools_state_appends_results_in_order envToolCall stTools (some "m2") ""
    [⟨"c1", "get_all_projects", ""⟩] (by decide) (by decide) (by decide))

/-- C6: the message sequence is append-only — every successful node
superstep yields a state whose message list is the prior list with a
(possibly empty) suffix appended; no prefix is mutated, removed or
reordered. -/
theorem node_execution_append_only (env : Env) (n : Node) (s : AgentState)
    (o : Jira.StepOut) (h : Jira.step env n s = Except.ok o) :
    ∃ t, o.state.messages = s.messages ++ t :=
  jira_step_append_only env n s o h

/-- Witness for C6 at a concrete `guard_input` step. -/
theorem node_execution_append_only_witness :
    ∃ t, outGuardPlain.state.messages = st0.messages ++ t :=
  node_execution_append_only envPlain Node.guard_input st0 outGuardPlain (by rfl)

/-- C7: executing `guard_input` appends no message, leaves the
remaining-step counter and the history unchanged, invokes no tool, and
its only state effect is storing the fresh User-role verdict; moreover a
turn blocked at input leaves the remaining-steps counter unchanged. -/
theorem guard_input_frame_effect :
    (∀ env s o, Jira.step env Node.guard_input s = Except.ok o →
        o.state.messages = s.messages ∧
        o.state.remaining_steps = s.remaining_steps ∧
        o.state.safety = env.guard "User" s.messages ∧ o.invs = []) ∧
    (∀ env s fuel r,
        (env.guard "User" s.messages).safety_assessment = SafetyAssessment.UNSAFE →
        Jira.run env (fuel + 2) Node.guard_input s = Except.ok r →
        r.state.remaining_steps = s.remaining_steps) := by
  constructor
  · intro env s o h
    simp only [Jira.step] at h
    split at h <;>
      · simp only [Except.ok.injEq] at h
        subst h
        refine ⟨by simp [applyUpdate, Jira.llama_guard_input], rfl, ?_, rfl⟩
        simp [applyUpdate, Jira.llama_guard_input]
  · intro env s fuel r hu hr
    rw [jira_run_guard_blocked env s fuel hu] at hr
    simp only [Except.ok.injEq] at hr
    subst hr
    rfl

/-- Witness for C7: frame effect of a concrete `guard_input` step and
counter preservation of a concrete blocked turn. -/
theorem guard_input_frame_effect_witness :
    (outGuardPlain.state.messages = st0.messages ∧
      outGuardPlain.state.remaining_steps = st0.remaining_steps ∧
      outGuardPlain.state.safety = envPlain.guard "User" st0.messages ∧
      outGuardPlain.invs = []) ∧
    resFlagged.state.remaining_steps = st0.remaining_steps :=
  ⟨guard_input_frame_effect.1 envPlain st0 outGuardPlain (by rfl),
   guard_input_frame_effect.2 envFlagged st0 0 resFlagged rfl (by rfl)⟩

/-- C8: the remaining-step counter never increases across a superstep;
the `model` node routes to `tools` only when the counter is at least 2;
and along any run from a state with a non-negative counter (with the
gate invariant at a `tools` start), the counter stays non-negative and
never exceeds its initial value. -/
theorem remaining_steps_monotone_and_gated :
    (∀ env n s o, Jira.step env n s = Except.ok o →
        o.state.remaining_steps ≤ s.remaining_steps) ∧
    (∀ env s o, Jira.step env Node.model s = Except.ok o → o.node = Node.tools →
        2 ≤ s.remaining_steps) ∧
    (∀ env fuel n s r, Jira.run env fuel n s = Except.ok r →
        0 ≤ s.remaining_steps → (n = Node.tools → 2 ≤ s.remaining_steps) →
        0 ≤ r.state.remaining_steps ∧ r.state.remaining_steps ≤ s.remaining_steps) := by
  refine ⟨?_, ?_, ?_⟩
  · intro env n s o h
    rcases jira_step_remaining env n s o h with he | ⟨-, he⟩ <;> omega
  · exact fun env s o h ht => jira_model_to_tools_gate env s o h ht
  · exact fun env fuel n s r h h0 hg => jira_run_budget env fuel n s r h h0 hg

/-- Witness for C8 on a concrete four-step run that dispatches a tool
and decrements the budget from 10 to 9. -/
theorem remaining_steps_monotone_and_gated_witness :
    0 ≤ resToolTurn.state.remaining_steps ∧
      resToolTurn.state.remaining_steps ≤ st0.remaining_steps :=
  remaining_steps_monotone_and_gated.2.2 envToolCall 4 Node.guard_input st0 resToolTurn
    (by rfl) (by decide) (by decide)

/-- C9: after every execution of the model node the last message is an
`AIMessage`, so the `TypeError` branch of `pending_tool_calls` is
unreachable and the step at the model node always succeeds. -/
theorem model_node_routing_total (env : Env) (s : AgentState) :
    (∃ i c tc, (applyUpdate s (Jira.acall_model env s)).messages.getLast? =
        some (Message.ai i c tc)) ∧
    ∃ o, Jira.step env Node.model s = Except.ok o := by
  obtain ⟨i, c, tc, hm, -⟩ := jira_acall_model_msgs env s
  refine ⟨⟨i, c, tc, ?_⟩, ?_⟩
  · simp [applyUpdate, hm]
  · obtain ⟨o, ho, -⟩ := jira_step_model_ok env s
    exact ⟨o, ho⟩

/-- C10: the JIRA and Azure DevOps assistants define the same turn
state machine: identical nodes, edges, routing predicates, budget
threshold and synthesized texts — for the same collaborators (model,
classifier, tool dispatch, instruction text) every superstep agrees. -/
theorem jira_azure_same_state_machine (env : Env) (n : Node) (s : AgentState) :
    Jira.step env n s = AzureDevOps.step env n s := by
  cases n <;> rfl

/-- C2 counterexample: invoking the `get_all_projects` wrapper with
unset credentials raises `ValueError` to the caller — the client is
constructed before the `try` block, so this failure path is NOT caught
and encoded as an error-string result. -/
theorem get_all_projects_raises_without_credentials :
    get_all_projects ⟨none, none, none⟩ (fun _ => Except.ok []) =
      Except.error "JIRA_URL, JIRA_EMAIL, and JIRA_API_TOKEN must be set" := by
  rfl

/-- C2 (amended): whenever the three JIRA credentials are set (client
construction succeeds), the wrapper returns a string and never raises;
every failure of the HTTP call inside the `try` block is caught and
encoded as the "Error retrieving projects: ..." string. -/
theorem get_all_projects_no_raise_when_configured (settings : JiraSettings)
    (c : JiraApiClient) (httpGet : String → Except String (List ProjectRec))
    (hc : get_jira_client settings = Except.ok c) :
    (∃ out, get_all_projects settings httpGet = Except.ok out) ∧
    (∀ e, httpGet (c.requestUrl "project") = Except.error e →
      get_all_projects settings httpGet =
        Except.ok ("Error retrieving projects: " ++ e)) := by
  unfold get_all_projects
  rw [hc]
  dsimp only
  constructor
  · exact ⟨_, rfl⟩
  · intro e he
    rw [he]

/-- Witness for the amended C2 with set credentials and a failing HTTP
layer. -/
theorem get_all_projects_no_raise_when_configured_witness :
    (∃ out, get_all_projects cfgSet httpFail = Except.ok out) ∧
    (∀ e, httpFail (clientSet.requestUrl "project") = Except.error e →
      get_all_projects cfgSet httpFail =
        Except.ok ("Error retrieving projects: " ++ e)) :=
  get_all_projects_no_raise_when_configured cfgSet clientSet httpFail (by rfl)
